import Mathlib

/-!
Verification of the serverB execution/position core of the `my-bot`
repository, shallowly embedded in Lean 4.

Python dicts are modelled as association lists (`List (String × β)`) with
Python-dict insert/lookup/delete semantics; floats are modelled as `ℚ`;
machine ints as `Int`; values that Python code may fail to parse (raising
an exception) are modelled as `Option`; functions that can raise return
`Except`.
-/

deriving instance DecidableEq for Except

namespace MyBot

/-! ### Association lists with Python-dict semantics -/

/-- `d.get(k)`: first binding of `k`. -/
def assocGet {β : Type} (k : String) : List (String × β) → Option β
  | [] => none
  | (k', v) :: rest => if k' = k then some v else assocGet k rest

/-- `d[k] = v`: replace the first binding of `k` in place, else append. -/
def assocInsert {β : Type} (k : String) (v : β) : List (String × β) → List (String × β)
  | [] => [(k, v)]
  | (k', v') :: rest =>
      if k' = k then (k, v) :: rest else (k', v') :: assocInsert k v rest

/-- `d.pop(k, None)` / `del d[k]`: drop the first binding of `k`. -/
def assocErase {β : Type} (k : String) : List (String × β) → List (String × β)
  | [] => []
  | (k', v') :: rest =>
      if k' = k then rest else (k', v') :: assocErase k rest

/-- Keys of the association list, in order. -/
def assocKeys {β : Type} (l : List (String × β)) : List String :=
  l.map Prod.fst

theorem assocGet_insert_self {β : Type} (k : String) (v : β) (l : List (String × β)) :
    assocGet k (assocInsert k v l) = some v := by
  induction l with
  | nil => simp [assocGet, assocInsert]
  | cons hd tl ih =>
      obtain ⟨k', v'⟩ := hd
      by_cases hk : k' = k
      · simp [assocGet, assocInsert, hk]
      · simp [assocGet, assocInsert, hk, ih]

theorem assocGet_insert_ne {β : Type} (k j : String) (v : β) (l : List (String × β))
    (hne : k ≠ j) : assocGet j (assocInsert k v l) = assocGet j l := by
  induction l with
  | nil => simp [assocGet, assocInsert, hne]
  | cons hd tl ih =>
      obtain ⟨k', v'⟩ := hd
      by_cases hk : k' = k
      · subst hk
        simp [assocGet, assocInsert, hne]
      · simp [assocGet, assocInsert, hk, ih]

theorem assocGet_eq_none_of_not_mem {β : Type} (k : String) (l : List (String × β))
    (h : k ∉ assocKeys l) : assocGet k l = none := by
  induction l with
  | nil => rfl
  | cons hd tl ih =>
      obtain ⟨k', v'⟩ := hd
      simp only [assocKeys, List.map_cons, List.mem_cons, not_or] at h
      have hne : k' ≠ k := fun hkk => h.1 hkk.symm
      simp only [assocGet, if_neg hne]
      exact ih h.2

theorem assocGet_erase_self {β : Type} (k : String) (l : List (String × β))
    (hnd : (assocKeys l).Nodup) : assocGet k (assocErase k l) = none := by
  induction l with
  | nil => simp [assocGet, assocErase]
  | cons hd tl ih =>
      obtain ⟨k', v'⟩ := hd
      simp only [assocKeys, List.map_cons, List.nodup_cons] at hnd
      by_cases hk : k' = k
      · subst hk
        simp only [assocErase, if_pos rfl]
        exact assocGet_eq_none_of_not_mem _ _ hnd.1
      · simp only [assocErase, if_neg hk, assocGet, if_neg hk]
        exact ih hnd.2

theorem assocGet_erase_ne {β : Type} (k j : String) (l : List (String × β))
    (hne : k ≠ j) : assocGet j (assocErase k l) = assocGet j l := by
  induction l with
  | nil => simp [assocGet, assocErase]
  | cons hd tl ih =>
      obtain ⟨k', v'⟩ := hd
      by_cases hk : k' = k
      · subst hk
        simp only [assocErase, eq_self_iff_true, if_true]
        simp only [assocGet, if_neg hne]
      · simp only [assocErase, if_neg hk, assocGet]
        by_cases hkj : k' = j
        · simp [hkj]
        · simp [hkj, ih]

theorem assocErase_of_not_mem {β : Type} (k : String) (l : List (String × β))
    (h : assocGet k l = none) : assocErase k l = l := by
  induction l with
  | nil => rfl
  | cons hd tl ih =>
      obtain ⟨k', v'⟩ := hd
      simp only [assocGet] at h
      by_cases hk : k' = k
      · simp [hk] at h
      · simp only [assocErase, if_neg hk]
        rw [ih (by simpa [hk] using h)]

theorem assocGet_none_after_erase {β : Type} (k : String) (l : List (String × β))
    (hnd : (assocKeys l).Nodup) : assocGet k (assocErase k l) = none :=
  assocGet_erase_self k l hnd

theorem assocKeys_erase_sublist {β : Type} (k : String) (l : List (String × β)) :
    (assocKeys (assocErase k l)).Sublist (assocKeys l) := by
  induction l with
  | nil => simp [assocErase, assocKeys]
  | cons hd tl ih =>
      obtain ⟨k', v'⟩ := hd
      by_cases hk : k' = k
      · simp only [assocErase, if_pos hk, assocKeys, List.map_cons]
        exact List.sublist_cons_of_sublist _ (List.Sublist.refl _)
      · simp only [assocErase, if_neg hk, assocKeys, List.map_cons]
        exact List.Sublist.cons₂ _ ih

theorem assocKeys_erase_nodup {β : Type} (k : String) (l : List (String × β))
    (hnd : (assocKeys l).Nodup) : (assocKeys (assocErase k l)).Nodup :=
  (assocKeys_erase_sublist k l).nodup hnd

theorem assocErase_idem {β : Type} (k : String) (l : List (String × β))
    (hnd : (assocKeys l).Nodup) :
    assocErase k (assocErase k l) = assocErase k l :=
  assocErase_of_not_mem k _ (assocGet_erase_self k l hnd)

/-! ### Python value helpers -/

/-- Python `int(q)` on a float: truncation toward zero. -/
def pyTrunc (q : ℚ) : Int := if 0 ≤ q then ⌊q⌋ else ⌈q⌉

/-- Python `str.upper()`, character by character (ASCII payloads). -/
def pyUpper (s : String) : String := ⟨s.data.map Char.toUpper⟩

/-- Python string truthiness of an optional string (`None` and `""` are falsy). -/
def optTruthy : Option String → Bool
  | none => false
  | some s => s ≠ ""

/-- Python `a or b` over optional strings, as used to pick the first truthy
key; returns `none` when no operand is truthy. -/
def firstTruthy (l : List (Option String)) : Option String :=
  match l with
  | [] => none
  | a :: rest => if optTruthy a then a else firstTruthy rest

/-! ### Position and PositionManager (`src/serverB/position_manager.py`)

The registry `PositionManager._positions` is a Python dict; timestamps are
abstract `Nat` clock readings supplied by the caller.
-/

structure Position where
  symbol : String
  side : String
  quantity : Int
  entry_price : ℚ
  security_id : Option String
  open_ts : Nat
  closed_ts : Option Nat
  exit_price : Option ℚ
  pnl : ℚ
  trailing_sl : Option ℚ
  status : String
  deriving Repr, DecidableEq

/-- `Position.__init__`: validates the side (raising `ValueError` on anything
whose upper-case form is not BUY/SELL) and initializes the fields. -/
def mkPosition (symbol side : String) (quantity : Int) (entry_price : ℚ)
    (security_id : Option String) (now : Nat) : Except String Position :=
  if pyUpper side = "BUY" ∨ pyUpper side = "SELL" then
    .ok { symbol := symbol
          side := pyUpper side
          quantity := quantity
          entry_price := entry_price
          security_id := security_id
          open_ts := now
          closed_ts := none
          exit_price := none
          pnl := 0
          trailing_sl := none
          status := "OPEN" }
  else
    .error "Invalid side"

/-- The in-memory registry of positions (a Python dict keyed by `pos_id`). -/
abbrev PositionMap : Type := List (String × Position)

/-- `PositionManager.open_position`: rejects (returns `None`) while any
position is present or a same-symbol position exists; otherwise constructs
the `Position` (which may raise) and registers it. -/
def open_position (st : PositionMap) (pos_id symbol side : String) (quantity : Int)
    (entry_price : ℚ) (security_id : Option String) (trailing_sl : Option ℚ)
    (now : Nat) : Except String (Option Position × PositionMap) :=
  if ¬ st.isEmpty then .ok (none, st)
  else if st.any (fun kv => kv.2.symbol = symbol) then .ok (none, st)
  else
    match mkPosition symbol side quantity entry_price security_id now with
    | .error e => .error e
    | .ok p0 =>
        let p := { p0 with trailing_sl := trailing_sl, status := "OPEN" }
        .ok (some p, assocInsert pos_id p st)

/-- `PositionManager._compute_pnl`. -/
def compute_pnl (p : Position) : ℚ :=
  match p.exit_price with
  | none => p.pnl
  | some ex =>
      if pyUpper p.side = "BUY" then (ex - p.entry_price) * (p.quantity : ℚ)
      else (p.entry_price - ex) * (p.quantity : ℚ)

/-- `PositionManager.close_position`: stamps exit data, computes realized
PnL, marks CLOSED, removes the entry from the registry and returns it. -/
def close_position (st : PositionMap) (pos_id : String) (exit_price : ℚ)
    (now : Nat) : Option Position × PositionMap :=
  match assocGet pos_id st with
  | none => (none, st)
  | some p =>
      let p1 := { p with exit_price := some exit_price, closed_ts := some now }
      let p2 := { p1 with pnl := compute_pnl p1 }
      let p3 := { p2 with status := "CLOSED" }
      (some p3, assocErase pos_id st)

/-- `PositionManager.update_market_price`: refreshes unrealized PnL in
place; closed positions and unknown ids are left alone. -/
def update_market_price (st : PositionMap) (pos_id : String) (market_price : ℚ) :
    Option Position × PositionMap :=
  match assocGet pos_id st with
  | none => (none, st)
  | some p =>
      if p.closed_ts.isSome then (some p, st)
      else
        let p' :=
          { p with pnl :=
              if pyUpper p.side = "BUY" then (market_price - p.entry_price) * (p.quantity : ℚ)
              else (p.entry_price - market_price) * (p.quantity : ℚ) }
        (some p', assocInsert pos_id p' st)

/-- `PositionManager.detect_broker_mismatch`. -/
def detect_broker_mismatch (st : PositionMap) (pos_id : String)
    (broker_security_id : Option String) : Bool :=
  match assocGet pos_id st with
  | none => false
  | some p =>
      optTruthy p.security_id && optTruthy broker_security_id &&
        decide (p.security_id.getD "" ≠ broker_security_id.getD "")

/-! ### RiskGate (`src/serverB/risk.py`)

`bot_state` holds dynamically typed values; a value that `float()`/`int()`
cannot parse is modelled as `none` and makes the body raise, which the
outer handler of `check_risk` turns into a rejection.
`payload.confidence_score`: outer `Option` is presence in the dict, inner
`Option` is parseability as a float (an unparseable value raises inside a
`try` whose `except` ignores it).
-/

structure BotState where
  daily_pnl : Option ℚ
  daily_trade_count : Option Int

structure RiskConfig where
  MAX_POSITION : Int
  MAX_DAILY_LOSS : ℚ
  MAX_TRADES_PER_DAY : Int
  BASE_QTY : Int

structure RiskPayload where
  confidence_score : Option (Option ℚ)

/-- `_projected_net_qty_after`: sum open quantities with SELL negated, then
add or subtract the candidate quantity by side. -/
def projected_net_qty_after (positions : PositionMap) (side : String) (qty : Int) : Int :=
  let net := positions.foldl
    (fun acc kv => if kv.2.side = "BUY" then acc + kv.2.quantity else acc - kv.2.quantity) 0
  if pyUpper side = "BUY" then net + qty else net - qty

/-- Confidence-based sizing step of `check_risk`. -/
def sizedQty (cfg : RiskConfig) (requested : Int) (payload : Option RiskPayload) : Int :=
  match payload with
  | none => requested
  | some pl =>
      match pl.confidence_score with
      | none => requested
      | some none => requested
      | some (some conf) => max 1 (pyTrunc ((cfg.BASE_QTY : ℚ) * conf))

/-- Body of `check_risk` (inside its `try`); `.error` marks the paths where
the Python body raises. -/
def check_risk_core (cfg : RiskConfig) (state : BotState) (positions : PositionMap)
    (side : String) (requested : Int) (payload : Option RiskPayload) :
    Except Unit (Bool × Int) :=
  let qty := sizedQty cfg requested payload
  match state.daily_pnl with
  | none => .error ()
  | some daily_pnl =>
      if daily_pnl ≤ -|cfg.MAX_DAILY_LOSS| then .ok (false, qty)
      else
        match state.daily_trade_count with
        | none => .error ()
        | some trade_count =>
            if trade_count ≥ cfg.MAX_TRADES_PER_DAY then .ok (false, qty)
            else
              if |projected_net_qty_after positions side qty| > cfg.MAX_POSITION then
                .ok (false, qty)
              else .ok (true, qty)

/-- `check_risk`: the body with its catch-all `except` returning
`(False, requested_qty)`. -/
def check_risk (cfg : RiskConfig) (state : BotState) (positions : PositionMap)
    (side : String) (requested : Int) (payload : Option RiskPayload) : Bool × Int :=
  match check_risk_core cfg state positions side requested payload with
  | .ok r => r
  | .error _ => (false, requested)

/-! ### ExecutionEngine (`src/serverB/execution.py`), SIMULATE path

The trades table is the append-only journal (`record_trade`, serial ids);
`_pending_orders` is a dict keyed by `pos_id`; published bus events are
logged in order. Advisory locks and the in-process lock serialize the
handler, so its sequential effect is modelled directly.
-/

structure TradeRecord where
  id : Nat
  side : String
  quantity : Int
  price : ℚ
  status : String
  deriving Repr, DecidableEq

structure PendingMeta where
  db_id : Option Nat
  pos_id : String
  placed_ts : Nat
  qty : Int
  side : String
  price : ℚ
  simulated : Bool
  deriving Repr, DecidableEq

inductive BusEvent where
  | orderPlaced (pos_id : String) (qty : Int) (price : ℚ) (status : String)
  | orderFilled (pos_id : String) (qty : Int) (price : ℚ) (status : String)
  deriving Repr, DecidableEq

structure ExecState where
  positions : PositionMap
  trades : List TradeRecord
  pending : List (String × PendingMeta)
  events : List BusEvent
  deriving DecidableEq

/-- ENTRY_SIGNAL payload fields read by the handler. `quantity`/`price`
are `none` when absent (Python `payload.get` returning `None`);
`confidence_score` as in `RiskPayload`. -/
structure EntryPayload where
  pos_id : Option String
  id : Option String
  symbol : String
  side : String
  quantity : Option Int
  price : Option ℚ
  security_id : Option String
  confidence_score : Option (Option ℚ)

def riskPayloadOf (pl : EntryPayload) : RiskPayload :=
  { confidence_score := pl.confidence_score }

/-- The pos id: `payload.get(..)` on pos_id, then id, else a synthesized name. -/
def entryPosId (pl : EntryPayload) (now : Nat) : String :=
  (firstTruthy [pl.pos_id, pl.id]).getD ("pos_" ++ toString now)

/-- The requested quantity, defaulting to 0 when absent. -/
def entryRequestedQty (pl : EntryPayload) : Int := pl.quantity.getD 0

/-- The risk-gate call the entry handler makes. -/
def entryRisk (cfg : RiskConfig) (bstate : BotState) (st : ExecState)
    (pl : EntryPayload) : Bool × Int :=
  check_risk cfg bstate st.positions pl.side (entryRequestedQty pl) (some (riskPayloadOf pl))

/-- Final quantity after the handler lets the risk module size the order
(the payload quantity is overwritten with the sized one when positive, then re-read). -/
def entryFinalQty (cfg : RiskConfig) (bstate : BotState) (st : ExecState)
    (pl : EntryPayload) : Int :=
  let sized := (entryRisk cfg bstate st pl).2
  if sized > 0 then sized else entryRequestedQty pl

/-- `_handle_entry_signal` with `SIMULATE=True`: journal a `simulated`
trade, publish ORDER_PLACED, insert into the pending table; when the
market is closed, additionally attempt `open_position`, publish
ORDER_FILLED and pop the pending entry. A raise inside `open_position`
escapes the handler (caught at the bus), leaving the partial state. -/
def handle_entry_signal_simulate (cfg : RiskConfig) (bstate : BotState)
    (mktOpen : Bool) (now : Nat) (st : ExecState) (pl : EntryPayload) : ExecState :=
  let pos_id := entryPosId pl now
  if ¬ (entryRisk cfg bstate st pl).1 then st
  else
    let quantity := entryFinalQty cfg bstate st pl
    if quantity ≤ 0 then st
    else
      let price := pl.price.getD 0
      let tid := st.trades.length + 1
      let trades' := st.trades ++
        [{ id := tid, side := pl.side, quantity := quantity, price := price, status := "simulated" }]
      let events' := st.events ++ [BusEvent.orderPlaced pos_id quantity price "simulated"]
      let pending' := assocInsert pos_id
        { db_id := some tid, pos_id := pos_id, placed_ts := now, qty := quantity,
          side := pl.side, price := price, simulated := true } st.pending
      if mktOpen then
        { st with trades := trades', events := events', pending := pending' }
      else
        match open_position st.positions pos_id pl.symbol pl.side quantity price
            pl.security_id none now with
        | .error _ => { st with trades := trades', events := events', pending := pending' }
        | .ok (_, positions') =>
            { positions := positions'
              trades := trades'
              pending := assocErase pos_id pending'
              events := events' ++ [BusEvent.orderFilled pos_id quantity price "simulated"] }

/-- ORDER_FILLED payload fields read by the cleanup handler. -/
structure FilledPayload where
  pos_id : Option String
  trade_id : Option String
  db_id : Option String

/-- `_handle_order_filled_cleanup`: pop the first truthy of
`pos_id`/`trade_id`/`db_id` from the pending table; no-op otherwise. -/
def handle_order_filled_cleanup (pending : List (String × PendingMeta))
    (payload : Option FilledPayload) : List (String × PendingMeta) :=
  match payload with
  | none => pending
  | some pl =>
      match firstTruthy [pl.pos_id, pl.trade_id, pl.db_id] with
      | none => pending
      | some k => assocErase k pending

/-! ### MarketClock (`is_market_open`)

The UTC clock reading is microseconds since 0001-01-01 00:00:00, which in
the proleptic Gregorian calendar of the Python `datetime` module is a Monday,
so `weekday = days % 7` with Monday = 0. A failing clock is modelled by
`none`, which the catch-all `except` turns into `False`.
-/

def usPerDay : Nat := 86400000000

/-- `timedelta(hours=5, minutes=30)` in microseconds. -/
def istOffsetUs : Nat := 19800000000

/-- `time(hour=9, minute=15)` as microseconds of day. -/
def marketStartUs : Nat := 33300000000

/-- `time(hour=15, minute=30)` as microseconds of day. -/
def marketEndUs : Nat := 55800000000

def is_market_open (now_utc : Option Nat) : Bool :=
  match now_utc with
  | none => false
  | some t =>
      let ist := t + istOffsetUs
      if (ist / usPerDay) % 7 ≥ 5 then false
      else decide (marketStartUs ≤ ist % usPerDay) && decide (ist % usPerDay ≤ marketEndUs)

/-- The claim, in its own words: the IST-converted instant is
on Monday..Friday and its time of day lies in the closed interval
[09:15, 15:30]. -/
def marketOpenSpec (t : Nat) : Prop :=
  (t + istOffsetUs) / usPerDay % 7 ≤ 4 ∧
  marketStartUs ≤ (t + istOffsetUs) % usPerDay ∧
  (t + istOffsetUs) % usPerDay ≤ marketEndUs

/-! ### Further association-list lemmas -/

theorem mem_assocKeys_insert {β : Type} (k j : String) (v : β) (l : List (String × β)) :
    j ∈ assocKeys (assocInsert k v l) ↔ j = k ∨ j ∈ assocKeys l := by
  induction l with
  | nil => simp [assocInsert, assocKeys]
  | cons hd tl ih =>
      obtain ⟨k', v'⟩ := hd
      by_cases hk : k' = k
      · subst hk
        simp only [assocInsert, eq_self_iff_true, if_true, assocKeys, List.map_cons,
          List.mem_cons]
        tauto
      · simp only [assocInsert, if_neg hk, assocKeys, List.map_cons, List.mem_cons]
        rw [show (List.map Prod.fst (assocInsert k v tl) : List String) = assocKeys (assocInsert k v tl) from rfl]
        rw [ih]
        tauto

theorem assocKeys_insert_nodup {β : Type} (k : String) (v : β) (l : List (String × β))
    (hnd : (assocKeys l).Nodup) : (assocKeys (assocInsert k v l)).Nodup := by
  induction l with
  | nil => simp [assocInsert, assocKeys]
  | cons hd tl ih =>
      obtain ⟨k', v'⟩ := hd
      simp only [assocKeys, List.map_cons, List.nodup_cons] at hnd
      by_cases hk : k' = k
      · subst hk
        simp only [assocInsert, eq_self_iff_true, if_true, assocKeys, List.map_cons,
          List.nodup_cons]
        exact ⟨hnd.1, hnd.2⟩
      · simp only [assocInsert, if_neg hk, assocKeys, List.map_cons, List.nodup_cons]
        refine ⟨?_, ih hnd.2⟩
        intro hmem
        rcases (mem_assocKeys_insert k k' v tl).mp hmem with h | h
        · exact hk h
        · exact hnd.1 h

/-- `max(1, int(x))` with Python truncation agrees with `max(1, floor(x))`. -/
theorem max_one_pyTrunc (q : ℚ) : max 1 (pyTrunc q) = max 1 ⌊q⌋ := by
  unfold pyTrunc
  by_cases h : 0 ≤ q
  · simp [h]
  · have hq : q < 0 := lt_of_not_le h
    have hceil : ⌈q⌉ ≤ 0 := Int.ceil_le.mpr (by exact_mod_cast le_of_lt hq)
    have hfloor : ⌊q⌋ ≤ ⌈q⌉ := Int.floor_le_ceil q
    simp only [if_neg h]
    omega

/-! ### Concrete objects used by witnesses and counterexamples -/

/-- A concrete open BUY position used by several concrete instantiations. -/
def pBuy : Position :=
  { symbol := "NIFTY", side := "BUY", quantity := 1, entry_price := 100,
    security_id := none, open_ts := 0, closed_ts := none, exit_price := none,
    pnl := 0, trailing_sl := none, status := "OPEN" }

/-- A one-entry registry holding `pBuy` under key P1. -/
def storeBuy : PositionMap := [("P1", pBuy)]

/-! ### Claim C2 -/

/-- The position that `open_position` registers in the C2 counterexample. -/
def c2posZero : Position :=
  { symbol := "NIFTY", side := "BUY", quantity := 0, entry_price := 100,
    security_id := none, open_ts := 0, closed_ts := none, exit_price := none,
    pnl := 0, trailing_sl := none, status := "OPEN" }

/-- Claim C2 as stated is false: `open_position` does not validate the
quantity. On an empty registry, a BUY open with `qty = 0` succeeds and
registers the position instead of returning `None`. -/
theorem C2_counterexample :
    c2posZero.quantity ≤ 0 ∧
    open_position [] "P1" "NIFTY" "BUY" 0 100 none none 0 =
      .ok (some c2posZero, [("P1", c2posZero)]) := by
  constructor
  · decide
  · decide

/-- Claim C2 amended: `open_position` returns `None` and leaves the
registry unchanged whenever any position is already present (which also
covers a same-symbol open position); on an empty registry it raises a
`ValueError` when the upper-cased side is not BUY/SELL, and otherwise —
with no validation of the quantity — registers and returns the new
position. -/
theorem C2_open_characterization (st : PositionMap) (pos_id symbol side : String)
    (qty : Int) (price : ℚ) (sec : Option String) (tsl : Option ℚ) (now : Nat) :
    (st ≠ [] → open_position st pos_id symbol side qty price sec tsl now = .ok (none, st)) ∧
    (st = [] → (pyUpper side = "BUY" ∨ pyUpper side = "SELL") →
      ∃ p, open_position st pos_id symbol side qty price sec tsl now =
          .ok (some p, [(pos_id, p)]) ∧
        p.symbol = symbol ∧ p.side = pyUpper side ∧ p.quantity = qty ∧
        p.entry_price = price ∧ p.security_id = sec ∧ p.trailing_sl = tsl ∧
        p.status = "OPEN") ∧
    (st = [] → ¬(pyUpper side = "BUY" ∨ pyUpper side = "SELL") →
      ∃ e, open_position st pos_id symbol side qty price sec tsl now = .error e) := by
  refine ⟨?_, ?_, ?_⟩
  · intro hne
    cases st with
    | nil => exact absurd rfl hne
    | cons hd tl => simp [open_position]
  · intro hempty hside
    subst hempty
    refine ⟨{ symbol := symbol, side := pyUpper side, quantity := qty,
              entry_price := price, security_id := sec, open_ts := now,
              closed_ts := none, exit_price := none, pnl := 0,
              trailing_sl := tsl, status := "OPEN" }, ?_, rfl, rfl, rfl, rfl, rfl, rfl, rfl⟩
    simp [open_position, mkPosition, hside, assocInsert]
  · intro hempty hside
    subst hempty
    refine ⟨"Invalid side", ?_⟩
    simp [open_position, mkPosition, hside]

/-- Witness for the amended C2: a registry already holding a position
rejects a further open and is left unchanged. -/
theorem C2_open_characterization_witness :
    storeBuy ≠ [] ∧
    open_position storeBuy "P2" "BANKNIFTY" "BUY" 1 200 none none 5 =
      .ok (none, storeBuy) :=
  ⟨by decide, (C2_open_characterization storeBuy "P2" "BANKNIFTY" "BUY" 1 200
      none none 5).1 (by decide)⟩

/-! ### Claim C5 -/

/-- Claim C5: for every position open in the store, `close_position` stamps
the exit price and close timestamp, marks it CLOSED, realizes PnL as
`(exit - entry) * qty` for BUY and `(entry - exit) * qty` for SELL, removes
it from the registry and returns it; afterwards it is absent from the
listing. -/
theorem C5_close_position (st : PositionMap) (pos_id : String) (p : Position)
    (ex : ℚ) (now : Nat)
    (hget : assocGet pos_id st = some p)
    (hnd : (assocKeys st).Nodup) :
    ∃ q, close_position st pos_id ex now = (some q, assocErase pos_id st) ∧
      q.exit_price = some ex ∧ q.closed_ts = some now ∧ q.status = "CLOSED" ∧
      (p.side = "BUY" → q.pnl = (ex - p.entry_price) * (p.quantity : ℚ)) ∧
      (p.side = "SELL" → q.pnl = (p.entry_price - ex) * (p.quantity : ℚ)) ∧
      assocGet pos_id (close_position st pos_id ex now).2 = none := by
  have hclose : close_position st pos_id ex now =
      (some { p with exit_price := some ex, closed_ts := some now,
                     pnl := compute_pnl { p with exit_price := some ex, closed_ts := some now },
                     status := "CLOSED" },
       assocErase pos_id st) := by
    simp [close_position, hget]
  refine ⟨_, hclose, rfl, rfl, rfl, ?_, ?_, ?_⟩
  · intro hbuy
    simp [compute_pnl, hbuy, show pyUpper "BUY" = "BUY" from by decide]
  · intro hsell
    simp [compute_pnl, hsell, show pyUpper "SELL" = "SELL" from by decide,
      show ("SELL" : String) ≠ "BUY" from by decide]
  · rw [hclose]
    exact assocGet_erase_self _ _ hnd

/-- Witness for C5 at a concrete one-position store. -/
theorem C5_close_position_witness :
    assocGet "P1" storeBuy = some pBuy ∧ (assocKeys storeBuy).Nodup ∧
    (∃ q, close_position storeBuy "P1" 50 7 = (some q, assocErase "P1" storeBuy) ∧
      q.exit_price = some 50 ∧ q.closed_ts = some 7 ∧ q.status = "CLOSED" ∧
      (pBuy.side = "BUY" → q.pnl = (50 - pBuy.entry_price) * (pBuy.quantity : ℚ)) ∧
      (pBuy.side = "SELL" → q.pnl = (pBuy.entry_price - 50) * (pBuy.quantity : ℚ)) ∧
      assocGet "P1" (close_position storeBuy "P1" 50 7).2 = none) :=
  ⟨by decide, by decide, C5_close_position storeBuy "P1" pBuy 50 7 (by decide) (by decide)⟩

/-! ### Claim C8 -/

/-- The stored position of the C8 counterexample, with security id ABC. -/
def c8posABC : Position :=
  { symbol := "NIFTY", side := "BUY", quantity := 1, entry_price := 100,
    security_id := some "ABC", open_ts := 0, closed_ts := none,
    exit_price := none, pnl := 0, trailing_sl := none, status := "OPEN" }

/-- The registry of the C8 counterexample. -/
def c8store : PositionMap := [("P1", c8posABC)]

/-- Claim C8 as stated is false: with stored security id ABC and a reported
broker id that is the empty string, the position exists and the two ids
differ, yet `detect_broker_mismatch` returns `false` (empty strings are
falsy in the guard). -/
theorem C8_counterexample :
    (assocGet "P1" c8store).isSome = true ∧
    c8posABC.security_id = some "ABC" ∧
    (some "ABC" : Option String) ≠ some "" ∧
    detect_broker_mismatch c8store "P1" (some "") = false := by
  refine ⟨by decide, by decide, by decide, by decide⟩

/-- Claim C8 amended: `detect_broker_mismatch` returns `true` iff the
position exists, both the stored and the reported security ids are truthy
(non-null, non-empty), and the two ids differ. -/
theorem C8_detect_mismatch_iff (st : PositionMap) (pos_id : String)
    (broker : Option String) :
    detect_broker_mismatch st pos_id broker = true ↔
      ∃ p s b, assocGet pos_id st = some p ∧ p.security_id = some s ∧ s ≠ "" ∧
        broker = some b ∧ b ≠ "" ∧ s ≠ b := by
  cases hget : assocGet pos_id st with
  | none => simp [detect_broker_mismatch, hget]
  | some p =>
      cases hsec : p.security_id with
      | none => simp [detect_broker_mismatch, hget, optTruthy, hsec]
      | some s =>
          cases hbrok : broker with
          | none => simp [detect_broker_mismatch, hget, optTruthy, hsec]
          | some b =>
              simp [detect_broker_mismatch, hget, optTruthy, hsec]
              tauto

/-! ### Claim C10 -/

/-- Claim C10: `update_market_price` modifies only the `pnl` field of the
addressed open position — `(price - entry) * qty` for BUY,
`(entry - price) * qty` for SELL — leaving all its other fields and all
other positions untouched, and returns `None` without change when the id
is absent. -/
theorem C10_update_market_price :
    (∀ (st : PositionMap) (pos_id : String) (price : ℚ),
        assocGet pos_id st = none → update_market_price st pos_id price = (none, st)) ∧
    (∀ (st : PositionMap) (pos_id : String) (p : Position) (price : ℚ),
        assocGet pos_id st = some p → p.closed_ts = none →
        ∃ p', update_market_price st pos_id price = (some p', assocInsert pos_id p' st) ∧
          p' = { p with pnl := if pyUpper p.side = "BUY"
                    then (price - p.entry_price) * (p.quantity : ℚ)
                    else (p.entry_price - price) * (p.quantity : ℚ) } ∧
          (p.side = "BUY" → p'.pnl = (price - p.entry_price) * (p.quantity : ℚ)) ∧
          (p.side = "SELL" → p'.pnl = (p.entry_price - price) * (p.quantity : ℚ)) ∧
          assocGet pos_id (assocInsert pos_id p' st) = some p' ∧
          ∀ k, k ≠ pos_id → assocGet k (assocInsert pos_id p' st) = assocGet k st) := by
  constructor
  · intro st pos_id price hget
    simp [update_market_price, hget]
  · intro st pos_id p price hget hopen
    refine ⟨_, ?_, rfl, ?_, ?_, assocGet_insert_self _ _ _, ?_⟩
    · simp [update_market_price, hget, hopen]
    · intro hbuy
      simp [hbuy, show pyUpper "BUY" = "BUY" from by decide]
    · intro hsell
      simp [hsell, show pyUpper "SELL" = "SELL" from by decide,
        show ("SELL" : String) ≠ "BUY" from by decide]
    · intro k hk
      exact assocGet_insert_ne _ _ _ _ (fun h => hk h.symm)

/-- Witness for C10: a concrete BUY position has only its PnL refreshed. -/
theorem C10_update_market_price_witness :
    assocGet "P1" storeBuy = some pBuy ∧ pBuy.closed_ts = none ∧
    (∃ p', update_market_price storeBuy "P1" 110 = (some p', assocInsert "P1" p' storeBuy) ∧
      p' = { pBuy with pnl := if pyUpper pBuy.side = "BUY"
                then ((110 : ℚ) - pBuy.entry_price) * (pBuy.quantity : ℚ)
                else (pBuy.entry_price - (110 : ℚ)) * (pBuy.quantity : ℚ) } ∧
      (pBuy.side = "BUY" → p'.pnl = ((110 : ℚ) - pBuy.entry_price) * (pBuy.quantity : ℚ)) ∧
      (pBuy.side = "SELL" → p'.pnl = (pBuy.entry_price - (110 : ℚ)) * (pBuy.quantity : ℚ)) ∧
      assocGet "P1" (assocInsert "P1" p' storeBuy) = some p' ∧
      ∀ k, k ≠ "P1" → assocGet k (assocInsert "P1" p' storeBuy) = assocGet k storeBuy) :=
  ⟨by decide, rfl, C10_update_market_price.2 storeBuy "P1" pBuy 110 (by decide) rfl⟩

/-! ### Claim C7 -/

/-- Claim C7: the ORDER_FILLED cleanup handler is idempotent on the
pending-order table — the addressed key is removed if present, and a second
application with the same payload changes nothing. -/
theorem C7_order_filled_idempotent (pending : List (String × PendingMeta))
    (payload : Option FilledPayload)
    (hnd : (assocKeys pending).Nodup) :
    handle_order_filled_cleanup (handle_order_filled_cleanup pending payload) payload =
      handle_order_filled_cleanup pending payload ∧
    ∀ k, payload.bind (fun pl => firstTruthy [pl.pos_id, pl.trade_id, pl.db_id]) = some k →
      assocGet k (handle_order_filled_cleanup pending payload) = none := by
  cases payload with
  | none =>
      refine ⟨rfl, ?_⟩
      intro k h
      cases h
  | some pl =>
      cases hft : firstTruthy [pl.pos_id, pl.trade_id, pl.db_id] with
      | none =>
          refine ⟨?_, ?_⟩
          · simp [handle_order_filled_cleanup, hft]
          · intro k h
            simp [Option.bind, hft] at h
      | some k0 =>
          refine ⟨?_, ?_⟩
          · simp only [handle_order_filled_cleanup, hft]
            exact assocErase_idem k0 pending hnd
          · intro k h
            simp only [Option.bind, hft, Option.some_inj] at h
            subst h
            simp only [handle_order_filled_cleanup, hft]
            exact assocGet_erase_self _ _ hnd

/-- A concrete pending-order entry for the C7 witness. -/
def metaP1 : PendingMeta :=
  { db_id := some 1, pos_id := "P1", placed_ts := 0, qty := 1, side := "BUY",
    price := 100, simulated := true }

/-- A one-entry pending table. -/
def pendingP1 : List (String × PendingMeta) := [("P1", metaP1)]

/-- An ORDER_FILLED payload addressing P1. -/
def filledP1 : FilledPayload :=
  { pos_id := some "P1", trade_id := none, db_id := none }

/-- Witness for C7 at a concrete one-entry pending table. -/
theorem C7_order_filled_idempotent_witness :
    (assocKeys pendingP1).Nodup ∧
    (handle_order_filled_cleanup (handle_order_filled_cleanup pendingP1 (some filledP1))
        (some filledP1) =
      handle_order_filled_cleanup pendingP1 (some filledP1) ∧
    ∀ k, (some filledP1).bind
        (fun pl => firstTruthy [pl.pos_id, pl.trade_id, pl.db_id]) = some k →
      assocGet k (handle_order_filled_cleanup pendingP1 (some filledP1)) = none) :=
  ⟨by decide, C7_order_filled_idempotent pendingP1 (some filledP1) (by decide)⟩

/-! ### Claim C3 -/

/-- On registries whose positions all carry a BUY or SELL side, summing
with the BUY test (as the code does) agrees with summing with SELL negated
(as the claim words it). -/
theorem net_fold_sell_eq_buy (positions : PositionMap)
    (hpos : ∀ kv ∈ positions, kv.2.side = "BUY" ∨ kv.2.side = "SELL") :
    ∀ acc : Int,
      positions.foldl
        (fun acc kv => if kv.2.side = "BUY" then acc + kv.2.quantity
                       else acc - kv.2.quantity) acc =
      positions.foldl
        (fun acc kv => if kv.2.side = "SELL" then acc - kv.2.quantity
                       else acc + kv.2.quantity) acc := by
  induction positions with
  | nil => intro acc; rfl
  | cons hd tl ih =>
      intro acc
      have hh := hpos hd (List.mem_cons_self _ _)
      have htl : ∀ kv ∈ tl, kv.2.side = "BUY" ∨ kv.2.side = "SELL" :=
        fun kv hkv => hpos kv (List.mem_cons_of_mem _ hkv)
      rcases hh with h | h
      · have hstep :
            (if hd.2.side = "BUY" then acc + hd.2.quantity else acc - hd.2.quantity) =
            (if hd.2.side = "SELL" then acc - hd.2.quantity else acc + hd.2.quantity) := by
          rw [h, if_pos rfl, if_neg (by decide : ¬("BUY" : String) = "SELL")]
        simp only [List.foldl_cons, hstep]
        exact ih htl _
      · have hstep :
            (if hd.2.side = "BUY" then acc + hd.2.quantity else acc - hd.2.quantity) =
            (if hd.2.side = "SELL" then acc - hd.2.quantity else acc + hd.2.quantity) := by
          rw [h, if_neg (by decide : ¬("SELL" : String) = "BUY"), if_pos rfl]
        simp only [List.foldl_cons, hstep]
        exact ih htl _

/-- Claim C3: `check_risk` rejects exactly when the daily loss cap, the
daily trade cap, or the projected-net-exposure cap is breached, and on
admission returns `(true, qty)` with `qty` the confidence-sized quantity
(`max(1, floor(BASE_QTY * conf))` when a numeric confidence is present,
the requested quantity otherwise). -/
theorem C3_check_risk (cfg : RiskConfig) (positions : PositionMap)
    (side : String) (requested : Int) (pnl : ℚ) (cnt : Int) (conf : Option ℚ)
    (hside : side = "BUY" ∨ side = "SELL")
    (hpos : ∀ kv ∈ positions, kv.2.side = "BUY" ∨ kv.2.side = "SELL") :
    let qty := match conf with
      | none => requested
      | some c => max 1 ⌊(cfg.BASE_QTY : ℚ) * c⌋
    let net := positions.foldl
      (fun acc kv => if kv.2.side = "SELL" then acc - kv.2.quantity
                     else acc + kv.2.quantity) 0
    let projected := if side = "BUY" then net + qty else net - qty
    ((check_risk cfg ⟨some pnl, some cnt⟩ positions side requested
        (some ⟨conf.map some⟩)).1 = false ↔
      (pnl ≤ -|cfg.MAX_DAILY_LOSS| ∨ cnt ≥ cfg.MAX_TRADES_PER_DAY ∨
       |projected| > cfg.MAX_POSITION)) ∧
    ((check_risk cfg ⟨some pnl, some cnt⟩ positions side requested
        (some ⟨conf.map some⟩)).1 = true →
      check_risk cfg ⟨some pnl, some cnt⟩ positions side requested
        (some ⟨conf.map some⟩) = (true, qty)) := by
  intro qty net projected
  have hq : sizedQty cfg requested (some ⟨conf.map some⟩) = qty := by
    cases conf with
    | none => rfl
    | some c =>
        show max 1 (pyTrunc ((cfg.BASE_QTY : ℚ) * c)) = max 1 ⌊(cfg.BASE_QTY : ℚ) * c⌋
        exact max_one_pyTrunc _
  have hproj : projected_net_qty_after positions side qty = projected := by
    unfold projected_net_qty_after
    rw [net_fold_sell_eq_buy positions hpos 0]
    rcases hside with h | h <;> subst h
    · rw [if_pos (by decide : pyUpper "BUY" = "BUY")]
      simp only [projected, if_pos rfl]
    · rw [if_neg (by decide : ¬ pyUpper "SELL" = "BUY")]
      simp only [projected, if_neg (by decide : ¬("SELL" : String) = "BUY")]
  simp only [check_risk, check_risk_core, hq, hproj]
  by_cases h1 : pnl ≤ -|cfg.MAX_DAILY_LOSS|
  · simp [h1]
  · by_cases h2 : cnt ≥ cfg.MAX_TRADES_PER_DAY
    · simp [h1, h2]
    · by_cases h3 : |projected| > cfg.MAX_POSITION
      · simp [h1, h2, h3]
      · simp [h1, h2, h3]

/-- Witness for C3: with the default limits, an empty registry, and a
confidence of 3/2, a BUY request for 10 is admitted. -/
theorem C3_check_risk_witness :
    (("BUY" : String) = "BUY" ∨ ("BUY" : String) = "SELL") ∧
    (∀ kv ∈ ([] : PositionMap), kv.2.side = "BUY" ∨ kv.2.side = "SELL") ∧
    (let qty := match (some (3/2 : ℚ) : Option ℚ) with
      | none => (10 : Int)
      | some c => max 1 ⌊(((50 : Int) : ℚ)) * c⌋
    let net := ([] : PositionMap).foldl
      (fun acc kv => if kv.2.side = "SELL" then acc - kv.2.quantity
                     else acc + kv.2.quantity) 0
    let projected := if ("BUY" : String) = "BUY" then net + qty else net - qty
    ((check_risk ⟨200, 5000, 20, 50⟩ ⟨some 0, some 0⟩ [] "BUY" 10
        (some ⟨(some (3/2 : ℚ) : Option ℚ).map some⟩)).1 = false ↔
      ((0 : ℚ) ≤ -|(⟨200, 5000, 20, 50⟩ : RiskConfig).MAX_DAILY_LOSS| ∨
       (0 : Int) ≥ (⟨200, 5000, 20, 50⟩ : RiskConfig).MAX_TRADES_PER_DAY ∨
       |projected| > (⟨200, 5000, 20, 50⟩ : RiskConfig).MAX_POSITION)) ∧
    ((check_risk ⟨200, 5000, 20, 50⟩ ⟨some 0, some 0⟩ [] "BUY" 10
        (some ⟨(some (3/2 : ℚ) : Option ℚ).map some⟩)).1 = true →
      check_risk ⟨200, 5000, 20, 50⟩ ⟨some 0, some 0⟩ [] "BUY" 10
        (some ⟨(some (3/2 : ℚ) : Option ℚ).map some⟩) = (true, qty))) :=
  ⟨Or.inl rfl, by simp,
    C3_check_risk ⟨200, 5000, 20, 50⟩ [] "BUY" 10 0 0 (some (3/2 : ℚ))
      (Or.inl rfl) (by simp)⟩

/-! ### Claim C6 -/

/-- Claim C6: whenever the risk-check body raises an internal error, the
catch-all handler rejects — `check_risk` never approves on failure. -/
theorem C6_risk_error_rejects (cfg : RiskConfig) (state : BotState)
    (positions : PositionMap) (side : String) (requested : Int)
    (payload : Option RiskPayload)
    (herr : ∃ e, check_risk_core cfg state positions side requested payload = .error e) :
    check_risk cfg state positions side requested payload = (false, requested) := by
  obtain ⟨e, he⟩ := herr
  unfold check_risk
  rw [he]

/-- Witness for C6: an unparsable `daily_pnl` makes the body raise and the
check reject. -/
theorem C6_risk_error_rejects_witness :
    (∃ e, check_risk_core ⟨200, 5000, 20, 50⟩ ⟨none, some 0⟩ [] "BUY" 5 none = .error e) ∧
    check_risk ⟨200, 5000, 20, 50⟩ ⟨none, some 0⟩ [] "BUY" 5 none = (false, 5) :=
  ⟨⟨(), rfl⟩,
    C6_risk_error_rejects ⟨200, 5000, 20, 50⟩ ⟨none, some 0⟩ [] "BUY" 5 none ⟨(), rfl⟩⟩

/-! ### Claim C9 -/

/-- Claim C9: `is_market_open` is true iff the IST-converted instant falls
on Monday..Friday with its time of day inside the closed interval
[09:15, 15:30]; a failing clock yields false. -/
theorem C9_is_market_open :
    is_market_open none = false ∧
    ∀ t : Nat, (is_market_open (some t) = true ↔ marketOpenSpec t) := by
  refine ⟨rfl, ?_⟩
  intro t
  unfold is_market_open marketOpenSpec usPerDay istOffsetUs marketStartUs marketEndUs
  by_cases h : ((t + 19800000000) / 86400000000) % 7 ≥ 5
  · simp only [if_pos h]
    constructor
    · intro hfalse
      cases hfalse
    · intro hspec
      omega
  · simp only [if_neg h, Bool.and_eq_true, decide_eq_true_eq]
    constructor
    · intro hb
      exact ⟨by omega, hb.1, hb.2⟩
    · intro hs
      exact ⟨hs.2.1, hs.2.2⟩

/-! ### Claim C4 -/

/-- The execution-engine state of the C4 counterexample: one position is
already open. -/
def stC4 : ExecState := { positions := storeBuy, trades := [], pending := [], events := [] }

/-- The ENTRY_SIGNAL payload used by the C4 theorems. -/
def plC4 : EntryPayload :=
  { pos_id := some "P2", id := none, symbol := "BANKNIFTY", side := "BUY",
    quantity := some 1, price := some 200, security_id := none,
    confidence_score := none }

set_option maxRecDepth 10000 in
/-- Claim C4 as stated is false: with another position already open, a
risk-approved simulated entry while the market is closed publishes
ORDER_FILLED and clears the pending entry, yet the position store is left
unchanged — the position is not opened although the market is closed. -/
theorem C4_counterexample :
    (entryRisk ⟨200, 5000, 20, 50⟩ ⟨some 0, some 0⟩ stC4 plC4).1 = true ∧
    0 < entryFinalQty ⟨200, 5000, 20, 50⟩ ⟨some 0, some 0⟩ stC4 plC4 ∧
    (handle_entry_signal_simulate ⟨200, 5000, 20, 50⟩ ⟨some 0, some 0⟩ false 0 stC4 plC4).events =
      stC4.events ++ [BusEvent.orderPlaced "P2" 1 200 "simulated",
                      BusEvent.orderFilled "P2" 1 200 "simulated"] ∧
    assocGet "P2"
      (handle_entry_signal_simulate ⟨200, 5000, 20, 50⟩ ⟨some 0, some 0⟩ false 0 stC4 plC4).positions = none ∧
    (handle_entry_signal_simulate ⟨200, 5000, 20, 50⟩ ⟨some 0, some 0⟩ false 0 stC4 plC4).positions =
      stC4.positions := by
  refine ⟨by decide, by decide, by decide, by decide, by decide⟩

/-- Claim C4 amended: in SIMULATE mode, a risk-approved entry with positive
final quantity — provided no position is already open and the side is
valid — journals a `simulated` trade and publishes ORDER_PLACED; exactly
when the market is closed it also opens the position, publishes
ORDER_FILLED and removes the pending entry, while with the market open it
leaves the entry pending, synthesizes no fill, and leaves the store
unchanged. -/
theorem C4_entry_simulate (cfg : RiskConfig) (bstate : BotState) (mktOpen : Bool)
    (now : Nat) (st : ExecState) (pl : EntryPayload)
    (happr : (entryRisk cfg bstate st pl).1 = true)
    (hqty : 0 < entryFinalQty cfg bstate st pl)
    (hempty : st.positions = [])
    (hside : pyUpper pl.side = "BUY" ∨ pyUpper pl.side = "SELL")
    (hnd : (assocKeys st.pending).Nodup) :
    let st' := handle_entry_signal_simulate cfg bstate mktOpen now st pl
    let pid := entryPosId pl now
    let q := entryFinalQty cfg bstate st pl
    let pr := pl.price.getD 0
    st'.trades = st.trades ++ [{ id := st.trades.length + 1, side := pl.side,
                                 quantity := q, price := pr, status := "simulated" }] ∧
    (mktOpen = true →
       st'.events = st.events ++ [BusEvent.orderPlaced pid q pr "simulated"] ∧
       st'.positions = st.positions ∧
       (assocGet pid st'.pending).isSome = true) ∧
    (mktOpen = false →
       st'.events = st.events ++ [BusEvent.orderPlaced pid q pr "simulated",
                                  BusEvent.orderFilled pid q pr "simulated"] ∧
       (∃ p, assocGet pid st'.positions = some p ∧ p.symbol = pl.symbol ∧
          p.side = pyUpper pl.side ∧ p.quantity = q ∧ p.entry_price = pr ∧
          p.status = "OPEN") ∧
       assocGet pid st'.pending = none) := by
  intro st' pid q pr
  have hnotrej : ¬¬ (entryRisk cfg bstate st pl).1 = true := by
    simp [happr]
  have hq0 : ¬ entryFinalQty cfg bstate st pl ≤ 0 := not_le.mpr hqty
  have hopen : open_position st.positions pid pl.symbol pl.side q pr pl.security_id none now =
      .ok (some ({ symbol := pl.symbol, side := pyUpper pl.side, quantity := q,
                   entry_price := pr, security_id := pl.security_id, open_ts := now,
                   closed_ts := none, exit_price := none, pnl := 0,
                   trailing_sl := none, status := "OPEN" } : Position),
           [(pid, ({ symbol := pl.symbol, side := pyUpper pl.side, quantity := q,
                     entry_price := pr, security_id := pl.security_id, open_ts := now,
                     closed_ts := none, exit_price := none, pnl := 0,
                     trailing_sl := none, status := "OPEN" } : Position))]) := by
    rw [hempty]
    simp [open_position, mkPosition, hside, assocInsert]
  cases mktOpen with
  | true =>
      have hst2 : st' =
          { positions := st.positions,
            trades := st.trades ++ [{ id := st.trades.length + 1, side := pl.side,
                                      quantity := q, price := pr, status := "simulated" }],
            pending := assocInsert pid
              { db_id := some (st.trades.length + 1), pos_id := pid, placed_ts := now,
                qty := q, side := pl.side, price := pr, simulated := true } st.pending,
            events := st.events ++ [BusEvent.orderPlaced pid q pr "simulated"] } := by
        show handle_entry_signal_simulate cfg bstate true now st pl = _
        simp only [handle_entry_signal_simulate, if_neg hnotrej, if_neg hq0,
          eq_self_iff_true, if_true]
      refine ⟨?_, ?_, ?_⟩
      · rw [hst2]
      · intro _
        rw [hst2]
        refine ⟨rfl, rfl, ?_⟩
        rw [assocGet_insert_self]
        rfl
      · intro h
        cases h
  | false =>
      have hst2 : st' =
          { positions :=
              [(pid, ({ symbol := pl.symbol, side := pyUpper pl.side, quantity := q,
                        entry_price := pr, security_id := pl.security_id, open_ts := now,
                        closed_ts := none, exit_price := none, pnl := 0,
                        trailing_sl := none, status := "OPEN" } : Position))],
            trades := st.trades ++ [{ id := st.trades.length + 1, side := pl.side,
                                      quantity := q, price := pr, status := "simulated" }],
            pending := assocErase pid (assocInsert pid
              { db_id := some (st.trades.length + 1), pos_id := pid, placed_ts := now,
                qty := q, side := pl.side, price := pr, simulated := true } st.pending),
            events := st.events ++ [BusEvent.orderPlaced pid q pr "simulated"] ++
                      [BusEvent.orderFilled pid q pr "simulated"] } := by
        show handle_entry_signal_simulate cfg bstate false now st pl = _
        simp only [handle_entry_signal_simulate, if_neg hnotrej, if_neg hq0]
        rw [if_neg (by decide : ¬ (false = true))]
        rw [hopen]
      refine ⟨?_, ?_, ?_⟩
      · rw [hst2]
      · intro h
        cases h
      · intro _
        rw [hst2]
        refine ⟨by simp, ?_, ?_⟩
        · refine ⟨({ symbol := pl.symbol, side := pyUpper pl.side, quantity := q,
                     entry_price := pr, security_id := pl.security_id, open_ts := now,
                     closed_ts := none, exit_price := none, pnl := 0,
                     trailing_sl := none, status := "OPEN" } : Position),
                   ?_, rfl, rfl, rfl, rfl, rfl⟩
          simp [assocGet]
        · exact assocGet_erase_self _ _ (assocKeys_insert_nodup _ _ _ hnd)

set_option maxRecDepth 10000 in
/-- Witness for the amended C4: a fresh store, market closed, one BUY
entry of quantity 1 at price 200. -/
theorem C4_entry_simulate_witness :
    (entryRisk ⟨200, 5000, 20, 50⟩ ⟨some 0, some 0⟩ ⟨[], [], [], []⟩ plC4).1 = true ∧
    0 < entryFinalQty ⟨200, 5000, 20, 50⟩ ⟨some 0, some 0⟩ ⟨[], [], [], []⟩ plC4 ∧
    (([] : PositionMap) = []) ∧
    (pyUpper plC4.side = "BUY" ∨ pyUpper plC4.side = "SELL") ∧
    (let st' := handle_entry_signal_simulate ⟨200, 5000, 20, 50⟩ ⟨some 0, some 0⟩ false 3
        ⟨[], [], [], []⟩ plC4
    let pid := entryPosId plC4 3
    let q := entryFinalQty ⟨200, 5000, 20, 50⟩ ⟨some 0, some 0⟩ ⟨[], [], [], []⟩ plC4
    let pr := plC4.price.getD 0
    st'.trades = ([] : List TradeRecord) ++
      [{ id := (0 : Nat) + 1, side := plC4.side, quantity := q, price := pr,
         status := "simulated" }] ∧
    (false = true →
       st'.events = ([] : List BusEvent) ++ [BusEvent.orderPlaced pid q pr "simulated"] ∧
       st'.positions = ([] : PositionMap) ∧
       (assocGet pid st'.pending).isSome = true) ∧
    (false = false →
       st'.events = ([] : List BusEvent) ++
         [BusEvent.orderPlaced pid q pr "simulated",
          BusEvent.orderFilled pid q pr "simulated"] ∧
       (∃ p, assocGet pid st'.positions = some p ∧ p.symbol = plC4.symbol ∧
          p.side = pyUpper plC4.side ∧ p.quantity = q ∧ p.entry_price = pr ∧
          p.status = "OPEN") ∧
       assocGet pid st'.pending = none)) :=
  ⟨by decide, by decide, rfl, by decide,
    C4_entry_simulate ⟨200, 5000, 20, 50⟩ ⟨some 0, some 0⟩ false 3 ⟨[], [], [], []⟩ plC4
      (by decide) (by decide) rfl (by decide) (by decide)⟩

/-! ### Claim C1 -/

/-- The eight distinct position ids of the C1 scenario. -/
def c1names : List String := ["P0", "P1", "P2", "P3", "P4", "P5", "P6", "P7"]

/-- The C1 scenario ENTRY_SIGNAL payload for one position id: BUY NIFTY,
quantity 1 at price 100. -/
def c1payload (nm : String) : EntryPayload :=
  { pos_id := some nm, id := none, symbol := "NIFTY", side := "BUY",
    quantity := some 1, price := some 100, security_id := some ("SIM_" ++ nm),
    confidence_score := none }

/-- The state after the eight entries are processed (SIMULATE, market
closed, default risk limits, fresh state). -/
def c1final : ExecState :=
  (c1names.map c1payload).foldl
    (handle_entry_signal_simulate ⟨200, 5000, 20, 50⟩ ⟨some 0, some 0⟩ false 0)
    ⟨[], [], [], []⟩

set_option maxRecDepth 100000 in
/-- Claim C1 evaluated on the code: after eight risk-approved simulated
entries with distinct pos ids on a fresh store with the market closed,
eight `simulated` TradeRecords exist but only ONE position is open — the
first entry wins and every later `open_position` call is rejected by the
single-position guard, contradicting the expected eight open positions
(which the repository test suite also asserts). -/
theorem C1_eight_entries :
    (c1final.trades.filter (fun t => t.status = "simulated")).length = 8 ∧
    c1final.positions.length = 1 ∧
    (assocGet "P0" c1final.positions).isSome = true ∧
    assocGet "P1" c1final.positions = none ∧
    ¬ c1final.positions.length = 8 := by
  refine ⟨by decide, by decide, by decide, by decide, by decide⟩

end MyBot
